import Mathlib

/-!
# Verification of the VECM estimation module

This file gives a shallow embedding of `statsmodels/tsa/vecm/vecm.py` and
proves/refutes the frozen specification claims about it.

Two representations are used:

* a *list world* (`Vecm` namespace): numpy 2-d arrays are `List (List ℚ)`
  (rows of rational entries).  Real-valued numpy arithmetic is modelled over
  the exact rationals; routines of external libraries whose outputs are
  irrational (`np.linalg.eig`, `np.linalg.svd`, `np.sqrt`,
  `scipy.stats.norm.cdf`) are passed in as oracle parameters, exactly at the
  call sites where the Python code invokes them.  Fallible numpy calls
  (`numpy.linalg.inv`, truthiness of arrays) return `Except String _`.

* a *matrix world* (`VecmMW` namespace): the same formulas over Mathlib's
  `Matrix (Fin _) (Fin _) ℚ`, used for the block-algebra claims about the
  maximum-likelihood estimator.
-/

namespace Vecm

/-- A numpy 2-d array: a list of rows with rational entries. -/
abbrev Mat := List (List ℚ)

/-- `m.shape[0]`. -/
def numRowsOf (m : Mat) : ℕ := m.length

/-- `m.shape[1]` (the length of the first row; rows of a well-formed array
all have the same length). -/
def numColsOf (m : Mat) : ℕ := (m.headD []).length

/-- `m.size`: the total number of entries. -/
def sizeOf (m : Mat) : ℕ := (m.map List.length).sum

/-- `m[i, j]` (0 outside the array, unused on well-formed input). -/
def entry (m : Mat) (i j : ℕ) : ℚ := (m.getD i []).getD j 0

/-- `m[:, a:]`. -/
def colsFrom (m : Mat) (a : ℕ) : Mat := m.map (fun r => r.drop a)

/-- `m[:, a:b]` (`b ≥ a`). -/
def colsRange (m : Mat) (a b : ℕ) : Mat := m.map (fun r => (r.drop a).take (b - a))

/-- `m[:, :b]`. -/
def colsTo (m : Mat) (b : ℕ) : Mat := m.map (fun r => r.take b)

/-- `m.T`. -/
def transposeM (m : Mat) : Mat :=
  (List.range (numColsOf m)).map (fun j => m.map (fun r => r.getD j 0))

/-- Dot product of two vectors of equal length. -/
def dotV (a b : List ℚ) : ℚ := (List.zipWith (· * ·) a b).sum

/-- `a.dot(b)` for 2-d arrays. -/
def matMul (a b : Mat) : Mat :=
  a.map (fun ra => (List.range (numColsOf b)).map (fun j => dotV ra (b.map (fun rb => rb.getD j 0))))

/-- Elementwise binary operation on equally-shaped arrays. -/
def zipMat (f : ℚ → ℚ → ℚ) (a b : Mat) : Mat := List.zipWith (List.zipWith f) a b

/-- `a + b`. -/
def addMat (a b : Mat) : Mat := zipMat (· + ·) a b

/-- `a - b`. -/
def subMat (a b : Mat) : Mat := zipMat (· - ·) a b

/-- Elementwise `a / b`. -/
def divMat (a b : Mat) : Mat := zipMat (· / ·) a b

/-- `-a`. -/
def negMat (a : Mat) : Mat := a.map (fun r => r.map (fun x => -x))

/-- `c * a` for a scalar `c`. -/
def smulMat (c : ℚ) (a : Mat) : Mat := a.map (fun r => r.map (fun x => c * x))

/-- `np.vstack((a, b))`. -/
def vstackM (a b : Mat) : Mat := a ++ b

/-- `np.hstack((a, b))`. -/
def hstackM (a b : Mat) : Mat := List.zipWith (· ++ ·) a b

/-- `np.identity n`. -/
def identityM (n : ℕ) : Mat :=
  (List.range n).map (fun i => (List.range n).map (fun j => if i = j then (1 : ℚ) else 0))

/-- `np.zeros((r, c))`. -/
def zerosM (r c : ℕ) : Mat := List.replicate r (List.replicate c 0)

/-- A row of ones, `np.ones T`. -/
def onesRow (T : ℕ) : List ℚ := List.replicate T 1

/-- `np.diff m` along the last axis: `m[:, 1:] - m[:, :-1]`. -/
def diffCols (m : Mat) : Mat := m.map (fun r => List.zipWith (fun a b => b - a) r (r.drop 1))

/-- Laplace expansion of the determinant along the first row.  Used to
model `numpy.linalg.inv` exactly over ℚ (via the adjugate). -/
def detM : Mat → ℚ
  | [] => 1
  | r :: rs =>
      ((List.range r.length).map (fun j =>
        (-1 : ℚ) ^ j * r.getD j 0 * detM (rs.map (fun row => row.eraseIdx j)))).sum
  termination_by m => m.length
  decreasing_by
    simp only [List.length_map, List.length_cons]
    omega

/-- The minor of `m` with row `i` and column `j` removed. -/
def minorM (m : Mat) (i j : ℕ) : Mat :=
  (m.eraseIdx i).map (fun r => r.eraseIdx j)

/-- The adjugate (transposed cofactor matrix). -/
def adjugateM (m : Mat) : Mat :=
  (List.range m.length).map (fun i =>
    (List.range m.length).map (fun j => (-1 : ℚ) ^ (i + j) * detM (minorM m j i)))

/-- `numpy.linalg.inv`: raises `LinAlgError` on a singular matrix, otherwise
returns the exact inverse `det⁻¹ · adjugate`. -/
def invM (m : Mat) : Except String Mat :=
  let d := detM m
  if d = 0 then .error "Singular matrix" else .ok (smulMat d⁻¹ (adjugateM m))

/-- Deterministic-term specification: the Python code only ever tests
`"co" in deterministic`, `"cc" in deterministic`, `"s" in deterministic`,
`"lt" in deterministic` on the specification string, so it is modelled as
the four membership flags. -/
structure Det where
  co : Bool
  cc : Bool
  s : Bool
  lt : Bool
deriving DecidableEq, Repr

/-- The seasonal indicator rows before rotation and centering:
`seasons = np.zeros((3, T))` with `seasons[i, i::4] = 1`. -/
def seasonsBase (T : ℕ) : Mat :=
  (List.range 3).map (fun i => (List.range T).map (fun j => if j % 4 = i then (1 : ℚ) else 0))

/-- The seasonal rows appended to `delta_x`:
`seasons = np.hstack((seasons[:, 1:4], seasons[:, :-3]))` followed by
`seasons = seasons - 1/4`. -/
def seasonsRows (T : ℕ) : Mat :=
  (seasonsBase T).map (fun r => ((r.drop 1).take 3 ++ r.take (T - 3)).map (fun x => x - 1/4))

/-- The stacked lagged-difference block `delta_x` before deterministic
terms: row `l*K + a` holds `delta_y[a, j + diff_lags - 1 - l]` at column `j`
(the column loop `delta_x[:, j] = delta_y[:, j+p-2:...:-1].T.reshape(...)`
stacks the `diff_lags` most recent differences, most recent first). -/
def deltaXBase (K diffLags : ℕ) (delta_y : Mat) (T : ℕ) : Mat :=
  (List.range (diffLags * K)).map (fun m =>
    (List.range T).map (fun j => entry delta_y (m % K) (j + diffLags - 1 - m / K)))

/-- `_endog_matrices(endog_tot, diff_lags, deterministic)`:
returns `(y_1_T, delta_y_1_T, y_min1, delta_x)`. -/
def endogMatrices (y : Mat) (diffLags : ℕ) (det : Det) : Mat × Mat × Mat × Mat :=
  let p := diffLags + 1
  let K := numRowsOf y
  let y_1_T := colsFrom y p
  let T := numColsOf y_1_T
  let delta_y := diffCols y
  let delta_y_1_T := colsFrom delta_y (p - 1)
  let y_min1 := colsRange y (p - 1) (numColsOf y - 1)
  let y_min1 := if det.cc then vstackM y_min1 [onesRow T] else y_min1
  let delta_x := deltaXBase K diffLags delta_y T
  let delta_x := if det.co then vstackM delta_x [onesRow T] else delta_x
  let delta_x := if det.s then vstackM delta_x (seasonsRows T) else delta_x
  let delta_x := if det.lt then
      vstackM delta_x [(List.range T).map (fun j => ((j : ℚ) + 1))] else delta_x
  (y_1_T, delta_y_1_T, y_min1, delta_x)

/-! ## Facts about the seasonal rows (claim C8) -/

lemma numColsOf_colsFrom (y : Mat) (a : ℕ) :
    numColsOf (colsFrom y a) = numColsOf y - a := by
  cases y with
  | nil => simp [numColsOf, colsFrom]
  | cons r rs => simp [numColsOf, colsFrom]

lemma length_seasonsRows (T : ℕ) : (seasonsRows T).length = 3 := by
  simp [seasonsRows, seasonsBase]

lemma length_deltaXBase (K diffLags : ℕ) (dy : Mat) (T : ℕ) :
    (deltaXBase K diffLags dy T).length = diffLags * K := by
  simp [deltaXBase]

/-- Entry `j` of seasonal row `i`: the period-4 indicator pattern, rotated
forward by one position and centred by subtracting `1/4`. -/
lemma seasonsRows_entry (T i j : ℕ) (hT : 4 ≤ T) (hi : i < 3) (hj : j < T) :
    entry (seasonsRows T) i j = (if (j + 1) % 4 = i then (1 : ℚ) else 0) - 1/4 := by
  have hrow : (seasonsRows T).getD i []
      = ((((List.range T).map (fun k => if k % 4 = i then (1 : ℚ) else 0)).drop 1).take 3
          ++ ((List.range T).map (fun k => if k % 4 = i then (1 : ℚ) else 0)).take (T - 3)).map
            (fun x => x - 1/4) := by
    rw [List.getD_eq_getElem?_getD, seasonsRows, seasonsBase]
    rw [List.getElem?_map, List.getElem?_map, List.getElem?_range hi]
    rfl
  have hmapelem : ∀ k, k < T →
      ((List.range T).map (fun k => if k % 4 = i then (1 : ℚ) else 0))[k]?
        = some (if k % 4 = i then (1 : ℚ) else 0) := by
    intro k hk
    rw [List.getElem?_map, List.getElem?_range hk]
    rfl
  have hlen1 : ((((List.range T).map (fun k => if k % 4 = i then (1 : ℚ) else 0)).drop 1).take
      3).length = 3 := by
    simp
    omega
  rcases lt_or_ge j 3 with hj3 | hj3
  · have hget : ((((List.range T).map (fun k => if k % 4 = i then (1 : ℚ) else 0)).drop 1).take 3
        ++ ((List.range T).map (fun k => if k % 4 = i then (1 : ℚ) else 0)).take (T - 3))[j]?
        = some (if (1 + j) % 4 = i then (1 : ℚ) else 0) := by
      rw [List.getElem?_append_left (by omega), List.getElem?_take_of_lt hj3,
        List.getElem?_drop]
      exact hmapelem (1 + j) (by omega)
    rw [entry, List.getD_eq_getElem?_getD, hrow, List.getElem?_map, hget]
    have h14 : (1 + j) % 4 = (j + 1) % 4 := by omega
    rw [h14]
    rfl
  · have hget : ((((List.range T).map (fun k => if k % 4 = i then (1 : ℚ) else 0)).drop 1).take 3
        ++ ((List.range T).map (fun k => if k % 4 = i then (1 : ℚ) else 0)).take (T - 3))[j]?
        = some (if (j - 3) % 4 = i then (1 : ℚ) else 0) := by
      rw [List.getElem?_append_right (by omega), hlen1, List.getElem?_take_of_lt (by omega)]
      exact hmapelem (j - 3) (by omega)
    rw [entry, List.getD_eq_getElem?_getD, hrow, List.getElem?_map, hget]
    have hmod : (j - 3) % 4 = (j + 1) % 4 := by omega
    rw [hmod]
    rfl

lemma entry_append_left (a b : Mat) (n j : ℕ) (h : n < a.length) :
    entry (a ++ b) n j = entry a n j := by
  unfold entry
  rw [List.getD_eq_getElem?_getD (a ++ b), List.getElem?_append_left h,
    ← List.getD_eq_getElem?_getD]

lemma entry_append_right (a b : Mat) (n j : ℕ) (h : a.length ≤ n) :
    entry (a ++ b) n j = entry b (n - a.length) j := by
  unfold entry
  rw [List.getD_eq_getElem?_getD (a ++ b), List.getElem?_append_right h,
    ← List.getD_eq_getElem?_getD]

/-- The `delta_x` returned by `_endog_matrices`, with the effective sample
size spelled out. -/
lemma endogMatrices_deltaX (y : Mat) (dl : ℕ) (det : Det) :
    (endogMatrices y dl det).2.2.2
      = (let T := numColsOf y - (dl + 1)
         let dx0 := deltaXBase (numRowsOf y) dl (diffCols y) T
         let dx1 := if det.co then vstackM dx0 [onesRow T] else dx0
         let dx2 := if det.s then vstackM dx1 (seasonsRows T) else dx1
         if det.lt then vstackM dx2 [(List.range T).map (fun j => ((j : ℚ) + 1))] else dx2) := by
  simp only [endogMatrices, numColsOf_colsFrom]

/-- In any window of four consecutive positions, the rotated period-4
indicator fires exactly once. -/
lemma window_indicator (i j : ℕ) (hi : i < 4) :
    ((if (j + 1) % 4 = i then (1 : ℚ) else 0) + (if (j + 2) % 4 = i then (1 : ℚ) else 0) +
     (if (j + 3) % 4 = i then (1 : ℚ) else 0) + (if (j + 4) % 4 = i then (1 : ℚ) else 0)) = 1 := by
  have h1 : (j + 1) % 4 = (j % 4 + 1) % 4 := (Nat.mod_add_mod j 4 1).symm
  have h2 : (j + 2) % 4 = (j % 4 + 2) % 4 := (Nat.mod_add_mod j 4 2).symm
  have h3 : (j + 3) % 4 = (j % 4 + 3) % 4 := (Nat.mod_add_mod j 4 3).symm
  have h4 : (j + 4) % 4 = (j % 4 + 4) % 4 := (Nat.mod_add_mod j 4 4).symm
  rw [h1, h2, h3, h4]
  have hj : j % 4 = 0 ∨ j % 4 = 1 ∨ j % 4 = 2 ∨ j % 4 = 3 := by omega
  have hi4 : i = 0 ∨ i = 1 ∨ i = 2 ∨ i = 3 := by omega
  rcases hj with h | h | h | h <;> rw [h] <;> rcases hi4 with hh | hh | hh | hh <;> subst hh <;>
    norm_num

/-- C8: when seasonal terms are requested, `_endog_matrices` appends exactly
3 (= S−1 for S = 4) extra rows to the differenced-regressor matrix
`delta_x`; each appended row is the period-4 indicator pattern phase-rotated
so the block starts at the 2nd position (wrapping) and mean-centred by
subtracting 1/4; consequently every seasonal row sums to exactly zero over
any 4 consecutive columns. -/
theorem C8_seasonal_rows (y : Mat) (dl : ℕ) (det : Det) (hs : det.s = true)
    (hT : 4 ≤ numColsOf y - (dl + 1)) :
    numRowsOf (endogMatrices y dl det).2.2.2
        = numRowsOf (endogMatrices y dl { det with s := false }).2.2.2 + 3
    ∧ (∀ i, i < 3 → ∀ j, j < numColsOf y - (dl + 1) →
        entry (endogMatrices y dl det).2.2.2
            (dl * numRowsOf y + (if det.co then 1 else 0) + i) j
          = (if (j + 1) % 4 = i then (1 : ℚ) else 0) - 1/4)
    ∧ (∀ i, i < 3 → ∀ j, j + 4 ≤ numColsOf y - (dl + 1) →
        entry (endogMatrices y dl det).2.2.2
            (dl * numRowsOf y + (if det.co then 1 else 0) + i) j
        + entry (endogMatrices y dl det).2.2.2
            (dl * numRowsOf y + (if det.co then 1 else 0) + i) (j + 1)
        + entry (endogMatrices y dl det).2.2.2
            (dl * numRowsOf y + (if det.co then 1 else 0) + i) (j + 2)
        + entry (endogMatrices y dl det).2.2.2
            (dl * numRowsOf y + (if det.co then 1 else 0) + i) (j + 3) = 0) := by
  obtain ⟨co, cc, s, lt⟩ := det
  cases hs
  have hdx := endogMatrices_deltaX y dl ⟨co, cc, true, lt⟩
  have hdx' := endogMatrices_deltaX y dl ⟨co, cc, false, lt⟩
  simp only at hdx hdx'
  have hpoint : ∀ i, i < 3 → ∀ j, j < numColsOf y - (dl + 1) →
      entry (endogMatrices y dl ⟨co, cc, true, lt⟩).2.2.2
          (dl * numRowsOf y + (if (⟨co, cc, true, lt⟩ : Det).co then 1 else 0) + i) j
        = (if (j + 1) % 4 = i then (1 : ℚ) else 0) - 1/4 := by
    intro i hi j hj
    rw [hdx]
    have hseas := seasonsRows_entry (numColsOf y - (dl + 1)) i j hT hi hj
    cases co <;> cases lt <;>
      simp only [vstackM, eq_self_iff_true, if_true, Bool.false_eq_true, if_false,
        Nat.add_zero]
    · rw [entry_append_right _ _ _ _ (by rw [length_deltaXBase]; omega), length_deltaXBase]
      have e : dl * numRowsOf y + i - dl * numRowsOf y = i := by omega
      rw [e]
      exact hseas
    · rw [entry_append_left _ _ _ _ (by
          simp only [List.length_append, length_deltaXBase, length_seasonsRows]
          omega),
        entry_append_right _ _ _ _ (by rw [length_deltaXBase]; omega),
        length_deltaXBase]
      have e : dl * numRowsOf y + i - dl * numRowsOf y = i := by omega
      rw [e]
      exact hseas
    · rw [entry_append_right _ _ _ _ (by
          simp only [List.length_append, length_deltaXBase, List.length_singleton]
          omega)]
      simp only [List.length_append, length_deltaXBase, List.length_singleton]
      have e : dl * numRowsOf y + 1 + i - (dl * numRowsOf y + 1) = i := by omega
      rw [e]
      exact hseas
    · rw [entry_append_left _ _ _ _ (by
          simp only [List.length_append, length_deltaXBase, length_seasonsRows,
            List.length_singleton]
          omega),
        entry_append_right _ _ _ _ (by
          simp only [List.length_append, length_deltaXBase, List.length_singleton]
          omega)]
      simp only [List.length_append, length_deltaXBase, List.length_singleton]
      have e : dl * numRowsOf y + 1 + i - (dl * numRowsOf y + 1) = i := by omega
      rw [e]
      exact hseas
  refine ⟨?_, hpoint, ?_⟩
  · rw [hdx, hdx']
    cases co <;> cases lt <;>
      simp only [vstackM, eq_self_iff_true, if_true, Bool.false_eq_true, if_false,
        List.length_append, length_deltaXBase, length_seasonsRows, List.length_singleton,
        numRowsOf]
  · intro i hi j hj
    rw [hpoint i hi j (by omega), hpoint i hi (j + 1) (by omega),
      hpoint i hi (j + 2) (by omega), hpoint i hi (j + 3) (by omega)]
    have hw := window_indicator i j (by omega)
    have e2 : j + 1 + 1 = j + 2 := by omega
    have e3 : j + 2 + 1 = j + 3 := by omega
    have e4 : j + 3 + 1 = j + 4 := by omega
    rw [e2, e3, e4]
    linarith

/-- Concrete data for the C8 witness: a 2-variable series of length 8. -/
def yC8 : Mat := [[0, 1, 2, 3, 4, 5, 6, 7], [0, 1, 0, 2, 0, 3, 0, 4]]

/-- Deterministic specification "s" (seasonal terms only). -/
def dC8 : Det := ⟨false, false, true, false⟩

/-- Witness for C8 at a concrete input. -/
theorem C8_seasonal_rows_witness :
    dC8.s = true ∧ 4 ≤ numColsOf yC8 - (1 + 1)
    ∧ numRowsOf (endogMatrices yC8 1 dC8).2.2.2
        = numRowsOf (endogMatrices yC8 1 { dC8 with s := false }).2.2.2 + 3
    ∧ entry (endogMatrices yC8 1 dC8).2.2.2 (1 * numRowsOf yC8 + (if dC8.co then 1 else 0) + 0) 0
      + entry (endogMatrices yC8 1 dC8).2.2.2 (1 * numRowsOf yC8 + (if dC8.co then 1 else 0) + 0) 1
      + entry (endogMatrices yC8 1 dC8).2.2.2 (1 * numRowsOf yC8 + (if dC8.co then 1 else 0) + 0) 2
      + entry (endogMatrices yC8 1 dC8).2.2.2 (1 * numRowsOf yC8 + (if dC8.co then 1 else 0) + 0) 3
      = 0 := by
  refine ⟨rfl, by decide, (C8_seasonal_rows yC8 1 dC8 rfl (by decide)).1, ?_⟩
  have h := (C8_seasonal_rows yC8 1 dC8 rfl (by decide)).2.2 0 (by decide) 0 (by decide)
  simpa using h

/-! ## Moment / projection helper and oracles -/

/-- Oracles for the external linear-algebra and statistics routines whose
exact outputs are irrational: `np.linalg.eig` (eigenvalues and eigenvector
matrix), `np.linalg.svd` (u, singular values, v), elementwise `np.sqrt`,
and `scipy.stats.norm.cdf`. -/
structure Oracles where
  eig : Mat → List ℚ × Mat
  svd : Mat → Mat × List ℚ × Mat
  sqrt : ℚ → ℚ
  normCdf : ℚ → ℚ

/-- `np.diag` of a vector. -/
def diagOfVec (xs : List ℚ) : Mat :=
  (List.range xs.length).map (fun i =>
    (List.range xs.length).map (fun j => if i = j then xs.getD i 0 else 0))

/-- `np.diag` of a square matrix. -/
def diagOfMat (m : Mat) : Mat := [(List.range m.length).map (fun i => entry m i i)]

/-- The diagonal of a square matrix as a 1-d array. -/
def diagVec (m : Mat) : List ℚ := (List.range m.length).map (fun i => entry m i i)

/-- `mat_sqrt`: `u_, s_, v_ = svd(m, full_matrices=False); s_ = np.sqrt(s_);
chain_dot(u_, np.diag(s_), v_)`. -/
def matSqrt (o : Oracles) (m : Mat) : Mat :=
  let usv := o.svd m
  matMul (matMul usv.1 (diagOfVec (usv.2.1.map o.sqrt))) usv.2.2

/-- `m / c` for a scalar `c`. -/
def divScalar (m : Mat) (c : ℚ) : Mat := m.map (fun r => r.map (fun x => x / c))

/-- `_block_matrix_ymin1_deltax(y_min1, delta_x)`. -/
def blockMatrixYmin1Deltax (y_min1 delta_x : Mat) : Except String Mat :=
  let b := matMul y_min1 (transposeM delta_x)
  invM (vstackM (hstackM (matMul y_min1 (transposeM y_min1)) b)
                (hstackM (transposeM b) (matMul delta_x (transposeM delta_x))))

/-- `_r_matrices(T, delta_x, delta_y_1_T, y_min1)`: the projection
`m = I_T - delta_xᵀ (delta_x delta_xᵀ)⁻¹ delta_x` applied to the
differenced-level and lagged-level matrices. -/
def rMatrices (T : ℕ) (delta_x delta_y_1_T y_min1 : Mat) :
    Except String (Mat × Mat) := do
  let w ← invM (matMul delta_x (transposeM delta_x))
  let m := subMat (identityM T) (matMul (matMul (transposeM delta_x) w) delta_x)
  .ok (matMul delta_y_1_T m, matMul y_min1 m)

/-- `_sij(delta_x, delta_y_1_T, y_min1)`: the four second-moment matrices,
the inverse square root of `s11`, and the eigen-decomposition of
`s11_ s10 s00⁻¹ s01 s11_`. -/
def sij (o : Oracles) (delta_x delta_y_1_T y_min1 : Mat) :
    Except String (Mat × Mat × Mat × Mat × Mat × List ℚ × Mat) := do
  let T := numColsOf y_min1
  let rr ← rMatrices T delta_x delta_y_1_T y_min1
  let r0 := rr.1
  let r1 := rr.2
  let s00 := divScalar (matMul r0 (transposeM r0)) T
  let s01 := divScalar (matMul r0 (transposeM r1)) T
  let s10 := divScalar (matMul r1 (transposeM r0)) T
  let s11 := divScalar (matMul r1 (transposeM r1)) T
  let s11_ ← invM (matSqrt o s11)
  let s00inv ← invM s00
  let ev := o.eig (matMul s11_ (matMul s10 (matMul s00inv (matMul s01 s11_))))
  .ok (s00, s01, s10, s11, s11_, ev.1, ev.2)

/-! ## The results container -/

/-- `np.kron`. -/
def kronM (a b : Mat) : Mat :=
  a.flatMap (fun ra => b.map (fun rb => ra.flatMap (fun x => rb.map (fun z => x * z))))

/-- `scipy.linalg.block_diag(a, b)`. -/
def blockDiagM (a b : Mat) : Mat :=
  a.map (fun r => r ++ List.replicate (numColsOf b) 0)
    ++ b.map (fun r => List.replicate (numColsOf a) 0 ++ r)

/-- Flatten a 2-d array in column-major (Fortran) order. -/
def flattenF (m : Mat) : List ℚ := (transposeM m).flatten

/-- `np.reshape(xs, (rows, cols), order="F")` of a 1-d array. -/
def reshapeF (xs : List ℚ) (rows cols : ℕ) : Mat :=
  (List.range rows).map (fun i => (List.range cols).map (fun j => xs.getD (i + j * rows) 0))

/-- numpy truthiness of `if arr:`: an array of more than one element raises
`ValueError`; a one-element array tests its element; an empty array is
falsy. `None` is falsy. -/
def arrayTruthy (m : Option Mat) : Except String Bool :=
  match m with
  | none => .ok false
  | some a =>
      if sizeOf a > 1 then
        .error "The truth value of an array with more than one element is ambiguous. Use a.any() or a.all()"
      else if sizeOf a = 1 then .ok (decide (a.flatten.getD 0 0 ≠ 0))
      else .ok false

/-- The state stored by `VECMResults.__init__`. -/
structure ResultsState where
  y_all : Mat
  K : ℕ
  p : ℕ
  deterministic : Det
  r : ℕ
  alpha : Mat
  beta : Mat
  det_coef_coint : Mat
  gamma : Mat
  det_coef : Mat
  sigma_u : Mat
  delta_y_1_T : Mat
  y_min1 : Mat
  delta_x : Mat
  T : ℕ
deriving DecidableEq, Repr

/-- `VECMResults.__init__(endog_tot, level_var_lag_order, coint_rank, alpha,
beta, gamma, sigma_u, deterministic, delta_y_1_T, y_min1, delta_x)`.

The `if y_min1 is not None or delta_x is not None or delta_y_1_T:` test uses
Python's short-circuit `or` and numpy array truthiness; when the branch is
taken with `y_min1`/`delta_x` equal to `None`, Python would store `None`
and crash on the final `self.T = self.y_min1.shape[1]` attribute access,
which is modelled by an error (a missing matrix that is merely stored is
modelled as `[]`; no claim reads those fields in that configuration). -/
def resultsInit (endog_tot : Mat) (level_var_lag_order coint_rank : ℕ)
    (alpha beta gamma sigma_u : Mat) (deterministic : Det)
    (delta_y_1_T y_min1 delta_x : Option Mat) : Except String ResultsState := do
  let K := numRowsOf endog_tot
  let p := level_var_lag_order
  let r := coint_rank
  let beta_split := (beta.take K, beta.drop K)
  let gamma_split := (colsTo gamma (K * (p - 1)), colsFrom gamma (K * (p - 1)))
  let condition ← (match y_min1 with
    | some _ => pure true
    | none => match delta_x with
      | some _ => pure true
      | none => arrayTruthy delta_y_1_T)
  if condition then
    match y_min1 with
    | none => .error "AttributeError: NoneType object has no attribute shape"
    | some ym =>
        .ok { y_all := endog_tot, K := K, p := p, deterministic := deterministic, r := r,
              alpha := alpha, beta := beta_split.1, det_coef_coint := beta_split.2,
              gamma := gamma_split.1, det_coef := gamma_split.2, sigma_u := sigma_u,
              delta_y_1_T := delta_y_1_T.getD [], y_min1 := ym,
              delta_x := delta_x.getD [], T := numColsOf ym }
  else
    let em := endogMatrices endog_tot level_var_lag_order deterministic
    .ok { y_all := endog_tot, K := K, p := p, deterministic := deterministic, r := r,
          alpha := alpha, beta := beta_split.1, det_coef_coint := beta_split.2,
          gamma := gamma_split.1, det_coef := gamma_split.2, sigma_u := sigma_u,
          delta_y_1_T := em.2.1, y_min1 := em.2.2.1,
          delta_x := em.2.2.2, T := numColsOf em.2.2.1 }

namespace ResultsState

/-- The pure real-valued part of `VECMResults.llf`: the Python code applies
`log` to floats at the end; here the exact rational determinant and
eigenvalues are carried into `ℝ`. `lams` is `np.log(1-lambd)` and `[:r]`
its first `r` entries (in the eigen-decomposition's native order). -/
noncomputable def llfCore (K T r : ℕ) (detS00 : ℚ) (lambd : List ℚ) : ℝ :=
  - K * T * Real.log (2 * Real.pi) / 2
  - T * (Real.log (detS00 : ℝ)
      + ((lambd.map (fun l : ℚ => Real.log (1 - (l : ℝ)))).take r).sum) / 2
  - K * T / 2

/-- `VECMResults.llf`: recomputes `_sij` from the stored matrices and
evaluates the closed-form Gaussian reduced-rank-regression log-likelihood,
Lutkepohl (7.2.20). -/
noncomputable def llf (st : ResultsState) (o : Oracles) : Except String ℝ := do
  let z ← sij o st.delta_x st.delta_y_1_T st.y_min1
  .ok (llfCore st.K st.T st.r (detM z.1) z.2.2.2.2.2.1)

/-- `VECMResults.num_det_coef_coint`. -/
def num_det_coef_coint (st : ResultsState) : ℕ :=
  if st.deterministic.cc then 1 else 0

/-- `VECMResults.cov_params`, Lutkepohl p. 296 (7.2.21). -/
def cov_params (st : ResultsState) : Except String Mat := do
  let beta := st.beta
  let dt := st.deterministic
  let num_det := (if dt.co then 1 else 0) + 3 * (if dt.s then 1 else 0)
    + (if dt.lt then 1 else 0)
  let b_id := blockDiagM beta (identityM (st.K * (st.p - 1) + num_det))
  let y_min1 := if num_det_coef_coint st > 0 then
      st.y_min1.take (st.y_min1.length - num_det_coef_coint st)
    else st.y_min1
  let b_y := matMul (transposeM beta) y_min1
  let omega11 := matMul b_y (transposeM b_y)
  let omega12 := matMul b_y (transposeM st.delta_x)
  let omega := vstackM (hstackM omega11 omega12)
    (hstackM (transposeM omega12) (matMul st.delta_x (transposeM st.delta_x)))
  let oinv ← invM omega
  .ok (kronM (matMul (matMul b_id oinv) (transposeM b_id)) st.sigma_u)

/-- `VECMResults.stderr_params` (a 1-d array). -/
def stderr_params (st : ResultsState) (o : Oracles) : Except String (List ℚ) := do
  let cp ← cov_params st
  .ok ((diagVec cp).map o.sqrt)

/-- `VECMResults.stderr_coint`. -/
def stderr_coint (st : ResultsState) (o : Oracles) : Except String Mat := do
  let rr ← rMatrices st.T st.delta_x st.delta_y_1_T st.y_min1
  let r12 := rr.2.drop st.r
  let mat1 ← invM (matMul r12 (transposeM r12))
  let det := numRowsOf st.det_coef_coint
  let sui ← invM st.sigma_u
  let inner ← invM (matMul (matMul (transposeM st.alpha) sui) st.alpha)
  let mat2 := kronM (identityM (st.K - st.r + det)) inner
  let first_rows := zerosM st.r st.r
  let last_rows_1d := (diagVec (matMul mat1 mat2)).map o.sqrt
  let last_rows := reshapeF last_rows_1d (st.K - st.r + det) st.r
  .ok (vstackM first_rows last_rows)

/-- `VECMResults.stderr_alpha`. -/
def stderr_alpha (st : ResultsState) (o : Oracles) : Except String Mat := do
  let sp ← stderr_params st o
  .ok (reshapeF (sp.take (sizeOf st.alpha)) (numRowsOf st.alpha) (numColsOf st.alpha))

/-- `VECMResults.stderr_beta` (`stderr_coint[:beta.size]` is a row slice of
the 2-d `stderr_coint`, then reshaped in Fortran order). -/
def stderr_beta (st : ResultsState) (o : Oracles) : Except String Mat := do
  let sc ← stderr_coint st o
  .ok (reshapeF (flattenF (sc.take (sizeOf st.beta)))
    (numRowsOf st.beta) (numColsOf st.beta))

/-- `VECMResults.stderr_det_coef_coint`: a size-zero block is returned
unchanged (the guard comes before any numerical work). -/
def stderr_det_coef_coint (st : ResultsState) (o : Oracles) : Except String Mat := do
  if sizeOf st.det_coef_coint = 0 then
    .ok st.det_coef_coint
  else
    let sc ← stderr_coint st o
    .ok (reshapeF (flattenF (sc.drop (sizeOf st.beta)))
      (numRowsOf st.det_coef_coint) (numColsOf st.det_coef_coint))

/-- `VECMResults.stderr_gamma`. -/
def stderr_gamma (st : ResultsState) (o : Oracles) : Except String Mat := do
  let start := numRowsOf st.alpha * (numRowsOf st.beta + numRowsOf st.det_coef_coint)
  let sp ← stderr_params st o
  .ok (reshapeF ((sp.drop start).take (sizeOf st.gamma))
    (numRowsOf st.gamma) (numColsOf st.gamma))

/-- `VECMResults.stderr_det_coef`: a size-zero block is returned
unchanged. -/
def stderr_det_coef (st : ResultsState) (o : Oracles) : Except String Mat := do
  if sizeOf st.det_coef = 0 then
    .ok st.det_coef
  else
    let sp ← stderr_params st o
    .ok (reshapeF (sp.drop (sp.length - sizeOf st.det_coef))
      (numRowsOf st.det_coef) (numColsOf st.det_coef))

/-- `VECMResults.tvalues_alpha`. -/
def tvalues_alpha (st : ResultsState) (o : Oracles) : Except String Mat := do
  let se ← stderr_alpha st o
  .ok (divMat st.alpha se)

/-- `VECMResults.tvalues_beta`: the identity-normalised first `r` rows are
forced to zero. -/
def tvalues_beta (st : ResultsState) (o : Oracles) : Except String Mat := do
  let se ← stderr_beta st o
  .ok (vstackM (zerosM st.r st.r) (divMat (st.beta.drop st.r) (se.drop st.r)))

/-- `VECMResults.tvalues_det_coef_coint`: size-zero guard first. -/
def tvalues_det_coef_coint (st : ResultsState) (o : Oracles) : Except String Mat := do
  if sizeOf st.det_coef_coint = 0 then
    .ok st.det_coef_coint
  else
    let se ← stderr_det_coef_coint st o
    .ok (divMat st.det_coef_coint se)

/-- `VECMResults.tvalues_gamma`. -/
def tvalues_gamma (st : ResultsState) (o : Oracles) : Except String Mat := do
  let se ← stderr_gamma st o
  .ok (divMat st.gamma se)

/-- `VECMResults.tvalues_det_coef`: size-zero guard first. -/
def tvalues_det_coef (st : ResultsState) (o : Oracles) : Except String Mat := do
  if sizeOf st.det_coef = 0 then
    .ok st.det_coef
  else
    let se ← stderr_det_coef st o
    .ok (divMat st.det_coef se)

/-- Two-sided normal-tail transform `(1 - Phi(|t|)) * 2` applied
elementwise. -/
def pTransform (o : Oracles) (m : Mat) : Mat :=
  m.map (fun row => row.map (fun t => (1 - o.normCdf |t|) * 2))

/-- `VECMResults.pvalues_alpha`. -/
def pvalues_alpha (st : ResultsState) (o : Oracles) : Except String Mat := do
  let tv ← tvalues_alpha st o
  .ok (pTransform o tv)

/-- `VECMResults.pvalues_beta`. -/
def pvalues_beta (st : ResultsState) (o : Oracles) : Except String Mat := do
  let tv ← tvalues_beta st o
  .ok (vstackM (zerosM st.r st.r) (pTransform o (tv.drop st.r)))

/-- `VECMResults.pvalues_det_coef_coint`: size-zero guard first. -/
def pvalues_det_coef_coint (st : ResultsState) (o : Oracles) : Except String Mat := do
  if sizeOf st.det_coef_coint = 0 then
    .ok st.det_coef_coint
  else
    let tv ← tvalues_det_coef_coint st o
    .ok (pTransform o tv)

/-- `VECMResults.pvalues_gamma`. -/
def pvalues_gamma (st : ResultsState) (o : Oracles) : Except String Mat := do
  let tv ← tvalues_gamma st o
  .ok (pTransform o tv)

/-- `VECMResults.pvalues_det_coef`: size-zero guard first. -/
def pvalues_det_coef (st : ResultsState) (o : Oracles) : Except String Mat := do
  if sizeOf st.det_coef = 0 then
    .ok st.det_coef
  else
    let tv ← tvalues_det_coef st o
    .ok (pTransform o tv)

/-- `VECMResults.var_repr`: fill `A = np.zeros((p, K, K))`, assign `A[0]`,
then `A[p-1]`, then `A[i]` for `i = 1, …, p-2`, exactly in the order of the
Python statements. -/
def var_repr (st : ResultsState) : List Mat :=
  let pi := matMul st.alpha (transposeM st.beta)
  let a0 : List Mat := List.replicate st.p (zerosM st.K st.K)
  let a1 := a0.set 0 (addMat (addMat pi (identityM st.K)) (colsTo st.gamma st.K))
  let a2 := a1.set (st.p - 1) (negMat (colsFrom st.gamma (st.K * (st.p - 2))))
  (List.range' 1 (st.p - 1 - 1)).foldl
    (fun a i => a.set i (subMat (colsRange st.gamma (st.K * i) (st.K * (i + 1)))
      (colsRange st.gamma (st.K * (i - 1)) (st.K * i)))) a2

end ResultsState

/-! ## Claims C10, C4, C9 -/

/-- C10: constructing the results container with `y_min1 = None`,
`delta_x = None` and a supplied `delta_y_1_T` of more than one element
fails: the supplied-matrices test evaluates the numpy truthiness of the
`delta_y_1_T` array, which raises.  Construction succeeds when all three
matrices are supplied or when all three are omitted. -/
theorem C10_truthiness_of_delta_y
    (y : Mat) (p r : ℕ) (al be ga su : Mat) (det : Det) (dy ym dx : Mat) :
    (sizeOf dy > 1 →
      resultsInit y p r al be ga su det (some dy) none none
        = .error "The truth value of an array with more than one element is ambiguous. Use a.any() or a.all()")
    ∧ (resultsInit y p r al be ga su det (some dy) (some ym) (some dx)).isOk = true
    ∧ (resultsInit y p r al be ga su det none none none).isOk = true := by
  refine ⟨fun h => ?_, rfl, rfl⟩
  simp only [resultsInit, arrayTruthy, if_pos h]
  rfl

/-- Witness for C10 at concrete inputs. -/
theorem C10_truthiness_of_delta_y_witness :
    sizeOf [[(1 : ℚ), 2]] > 1
    ∧ resultsInit [[(0 : ℚ), 1, 2], [0, 1, 4]] 2 1 [[1], [1]] [[1], [2]]
        [[1, 0], [0, 1]] [[1, 0], [0, 1]] ⟨false, false, false, false⟩
        (some [[(1 : ℚ), 2]]) none none
      = .error "The truth value of an array with more than one element is ambiguous. Use a.any() or a.all()"
    ∧ (resultsInit [[(0 : ℚ), 1, 2], [0, 1, 4]] 2 1 [[1], [1]] [[1], [2]]
        [[1, 0], [0, 1]] [[1, 0], [0, 1]] ⟨false, false, false, false⟩
        (some [[(1 : ℚ), 2]]) (some [[(1 : ℚ), 2]]) (some [[(1 : ℚ), 2]])).isOk = true
    ∧ (resultsInit [[(0 : ℚ), 1, 2], [0, 1, 4]] 2 1 [[1], [1]] [[1], [2]]
        [[1, 0], [0, 1]] [[1, 0], [0, 1]] ⟨false, false, false, false⟩
        none none none).isOk = true := by
  have h := C10_truthiness_of_delta_y [[(0 : ℚ), 1, 2], [0, 1, 4]] 2 1 [[1], [1]] [[1], [2]]
    [[1, 0], [0, 1]] [[1, 0], [0, 1]] ⟨false, false, false, false⟩
    [[(1 : ℚ), 2]] [[(1 : ℚ), 2]] [[(1 : ℚ), 2]]
  exact ⟨by decide, h.1 (by decide), h.2.1, h.2.2⟩

/-- Concrete data for C4: a 2-variable series of length 8; the estimator
used `diff_lags = 1`, hence passes `level_var_lag_order = p = 2` to the
container. -/
def yC4 : Mat := [[0, 1, 3, 2, 5, 4, 6, 8], [1, 0, 2, 4, 3, 6, 5, 9]]

/-- C4 (code bug): when no matrices are supplied, `VECMResults.__init__`
recomputes them as `_endog_matrices(endog_tot, level_var_lag_order,
deterministic)`, passing the VAR lag order `p = diff_lags + 1` where
`_endog_matrices` expects the VEC lag count `diff_lags`; the recomputed
matrices therefore differ from the builder outputs the estimator used
(here: `delta_x` gets `2K` rows instead of `K`). -/
theorem C4_recompute_lag_mismatch :
    (resultsInit yC4 2 1 [[1], [1]] [[1], [2]] [[1, 0], [0, 1]] [[1, 0], [0, 1]]
        ⟨false, false, false, false⟩ none none none).map ResultsState.delta_x
      = .ok (endogMatrices yC4 2 ⟨false, false, false, false⟩).2.2.2
    ∧ (endogMatrices yC4 2 ⟨false, false, false, false⟩).2.2.2
      ≠ (endogMatrices yC4 1 ⟨false, false, false, false⟩).2.2.2 := by
  refine ⟨rfl, fun h => absurd (congrArg numRowsOf h) ?_⟩
  decide

/-- C9: if the deterministic-in-cointegration block or the
deterministic-outside block has size zero, then every derived quantity for
that block (standard errors, t-values, p-values) returns the same size-zero
array, without raising. -/
theorem C9_zero_size_det_blocks (st : ResultsState) (o : Oracles) :
    (sizeOf st.det_coef_coint = 0 →
      ResultsState.stderr_det_coef_coint st o = .ok st.det_coef_coint
      ∧ ResultsState.tvalues_det_coef_coint st o = .ok st.det_coef_coint
      ∧ ResultsState.pvalues_det_coef_coint st o = .ok st.det_coef_coint)
    ∧ (sizeOf st.det_coef = 0 →
      ResultsState.stderr_det_coef st o = .ok st.det_coef
      ∧ ResultsState.tvalues_det_coef st o = .ok st.det_coef
      ∧ ResultsState.pvalues_det_coef st o = .ok st.det_coef) := by
  constructor
  · intro h
    refine ⟨?_, ?_, ?_⟩ <;>
      simp [ResultsState.stderr_det_coef_coint, ResultsState.tvalues_det_coef_coint,
        ResultsState.pvalues_det_coef_coint, h]
  · intro h
    refine ⟨?_, ?_, ?_⟩ <;>
      simp [ResultsState.stderr_det_coef, ResultsState.tvalues_det_coef,
        ResultsState.pvalues_det_coef, h]

/-- A concrete results-container state with both deterministic blocks of
size zero (no deterministic terms, `K = 2`, `p = 2`, `r = 1`). -/
def stC9 : ResultsState :=
  { y_all := yC4, K := 2, p := 2, deterministic := ⟨false, false, false, false⟩, r := 1,
    alpha := [[1], [1]], beta := [[1], [2]], det_coef_coint := [],
    gamma := [[1, 0], [0, 1]], det_coef := [[], []], sigma_u := [[1, 0], [0, 1]],
    delta_y_1_T := [[1, 2], [1, 2]], y_min1 := [[1, 3], [0, 2]],
    delta_x := [[1, 0], [0, 1]], T := 2 }

/-- A trivial oracle assignment (its values are irrelevant to the size-zero
branches). -/
def oTriv : Oracles := ⟨fun _ => ([], []), fun _ => ([], [], []), id, id⟩

/-- Witness for C9 at a concrete state. -/
theorem C9_zero_size_det_blocks_witness :
    sizeOf stC9.det_coef_coint = 0 ∧ sizeOf stC9.det_coef = 0
    ∧ ResultsState.stderr_det_coef_coint stC9 oTriv = .ok stC9.det_coef_coint
    ∧ ResultsState.tvalues_det_coef_coint stC9 oTriv = .ok stC9.det_coef_coint
    ∧ ResultsState.pvalues_det_coef_coint stC9 oTriv = .ok stC9.det_coef_coint
    ∧ ResultsState.stderr_det_coef stC9 oTriv = .ok stC9.det_coef
    ∧ ResultsState.tvalues_det_coef stC9 oTriv = .ok stC9.det_coef
    ∧ ResultsState.pvalues_det_coef stC9 oTriv = .ok stC9.det_coef := by
  have h := C9_zero_size_det_blocks stC9 oTriv
  have h1 := h.1 (by decide)
  have h2 := h.2 (by decide)
  exact ⟨by decide, by decide, h1.1, h1.2.1, h1.2.2, h2.1, h2.2.1, h2.2.2⟩

/-! ## Claim C7: the level-VAR representation -/

lemma length_foldl_set (f : ℕ → Mat) (l : List ℕ) (a : List Mat) :
    (l.foldl (fun acc i => acc.set i (f i)) a).length = a.length := by
  induction l generalizing a with
  | nil => rfl
  | cons h t ih => simp [ih]

lemma foldl_set_getElem (f : ℕ → Mat) (l : List ℕ) (a : List Mat) (n : ℕ)
    (hn : n < a.length) :
    (l.foldl (fun acc i => acc.set i (f i)) a)[n]?
      = if n ∈ l then some (f n) else a[n]? := by
  induction l generalizing a with
  | nil => simp
  | cons hd t ih =>
      simp only [List.foldl_cons]
      rw [ih _ (by simpa using hn)]
      by_cases hmem : n ∈ t
      · simp [hmem]
      · by_cases hhd : n = hd
        · subst hhd
          simp [hmem, List.getElem?_set_self hn]
        · simp [hmem, hhd, List.getElem?_set_ne (fun hh => hhd hh.symm)]

/-- C7: for a results container with `p ≥ 2` (VEC lag count ≥ 1) and a
well-formed `Γ` of `K·(p−1)` columns, `var_repr` consists of exactly `p`
matrices with `A_0 = Π + I + Γ[:, :K]` (where `Π = α βᵀ`),
`A_{p−1} = −Γ[:, K(p−2):K(p−1)]` (the last `K` columns), and
`A_i = Γ[:, Ki:K(i+1)] − Γ[:, K(i−1):Ki]` for `0 < i < p−1`. -/
theorem C7_var_repr (st : ResultsState) (hp : 2 ≤ st.p)
    (hg : ∀ row ∈ st.gamma, row.length = st.K * (st.p - 1)) :
    (ResultsState.var_repr st).length = st.p
    ∧ (ResultsState.var_repr st).getD 0 []
        = addMat (addMat (matMul st.alpha (transposeM st.beta)) (identityM st.K))
            (colsRange st.gamma 0 st.K)
    ∧ (ResultsState.var_repr st).getD (st.p - 1) []
        = negMat (colsRange st.gamma (st.K * (st.p - 2)) (st.K * (st.p - 1)))
    ∧ ∀ i, 0 < i → i < st.p - 1 →
        (ResultsState.var_repr st).getD i []
          = subMat (colsRange st.gamma (st.K * i) (st.K * (i + 1)))
              (colsRange st.gamma (st.K * (i - 1)) (st.K * i)) := by
  have hfrom : colsFrom st.gamma (st.K * (st.p - 2))
      = colsRange st.gamma (st.K * (st.p - 2)) (st.K * (st.p - 1)) := by
    unfold colsFrom colsRange
    refine List.map_congr_left (fun row hrow => ?_)
    have hlen : (row.drop (st.K * (st.p - 2))).length
        = st.K * (st.p - 1) - st.K * (st.p - 2) := by
      rw [List.length_drop, hg row hrow]
    exact (List.take_of_length_le (le_of_eq hlen)).symm
  have hto : colsTo st.gamma st.K = colsRange st.gamma 0 st.K := by
    unfold colsTo colsRange
    refine List.map_congr_left (fun row hrow => ?_)
    simp
  unfold ResultsState.var_repr
  simp only [hto, hfrom]
  set A0v := addMat (addMat (matMul st.alpha (transposeM st.beta)) (identityM st.K))
    (colsRange st.gamma 0 st.K) with hA0v
  set Alast := negMat (colsRange st.gamma (st.K * (st.p - 2)) (st.K * (st.p - 1))) with hAl
  set fmid : ℕ → Mat := fun i => subMat (colsRange st.gamma (st.K * i) (st.K * (i + 1)))
    (colsRange st.gamma (st.K * (i - 1)) (st.K * i)) with hfm
  set base := ((List.replicate st.p (zerosM st.K st.K)).set 0 A0v).set (st.p - 1) Alast
    with hbase
  have hlenbase : base.length = st.p := by simp [hbase]
  have hlen : ((List.range' 1 (st.p - 1 - 1)).foldl
      (fun a i => a.set i (fmid i)) base).length = st.p := by
    rw [length_foldl_set, hlenbase]
  refine ⟨hlen, ?_, ?_, ?_⟩
  · rw [List.getD_eq_getElem?_getD,
      foldl_set_getElem fmid _ base 0 (by omega)]
    have h0 : (0 : ℕ) ∉ List.range' 1 (st.p - 1 - 1) := by
      intro hmem
      obtain ⟨hge, hlt⟩ := List.mem_range'_1.mp hmem
      omega
    rw [if_neg h0, hbase]
    rw [List.getElem?_set_ne (by omega)]
    rw [List.getElem?_set_self (by simp; omega)]
    rfl
  · rw [List.getD_eq_getElem?_getD,
      foldl_set_getElem fmid _ base (st.p - 1) (by omega)]
    have h0 : (st.p - 1) ∉ List.range' 1 (st.p - 1 - 1) := by
      intro hmem
      obtain ⟨hge, hlt⟩ := List.mem_range'_1.mp hmem
      omega
    rw [if_neg h0, hbase]
    rw [List.getElem?_set_self (by simp; omega)]
    rfl
  · intro i hi0 hi1
    rw [List.getD_eq_getElem?_getD,
      foldl_set_getElem fmid _ base i (by omega)]
    have h0 : i ∈ List.range' 1 (st.p - 1 - 1) := by
      rw [List.mem_range'_1]
      omega
    rw [if_pos h0]
    rfl

/-- A concrete results-container state for the C7 witness: `K = 1`,
`p = 3` (VEC lag count 2). -/
def stC7 : ResultsState :=
  { y_all := [[0, 1, 2, 3, 4, 5]], K := 1, p := 3,
    deterministic := ⟨false, false, false, false⟩, r := 1,
    alpha := [[3]], beta := [[4]], det_coef_coint := [],
    gamma := [[2, 5]], det_coef := [[]], sigma_u := [[1]],
    delta_y_1_T := [[1, 1]], y_min1 := [[2, 3]],
    delta_x := [[1, 0], [0, 1]], T := 2 }

/-- Witness for C7 at a concrete state. -/
theorem C7_var_repr_witness :
    2 ≤ stC7.p ∧ (∀ row ∈ stC7.gamma, row.length = stC7.K * (stC7.p - 1))
    ∧ (ResultsState.var_repr stC7).length = stC7.p
    ∧ (ResultsState.var_repr stC7).getD 1 []
        = subMat (colsRange stC7.gamma (stC7.K * 1) (stC7.K * (1 + 1)))
            (colsRange stC7.gamma (stC7.K * (1 - 1)) (stC7.K * 1)) := by
  refine ⟨by decide, by decide, (C7_var_repr stC7 (by decide) (by decide)).1,
    (C7_var_repr stC7 (by decide) (by decide)).2.2.2 1 (by decide) (by decide)⟩

/-! ## The `VECM` model class and `fit` (claims C1 and C6) -/

/-- The mutable state of a `VECM` model object: `self.y` (the transposed
endog), `self.neqs`, and `self.p` (absent until `fit` assigns it). -/
structure VECMModel where
  y : Mat
  neqs : ℕ
  p : Option ℕ
deriving DecidableEq, Repr

/-- What a call to `fit` can return: a plain dict (modelled as an ordered
key/value list) or a `VECMResults` object. -/
inductive FitOutcome where
  | mapping (entries : List (String × Mat))
  | results (st : ResultsState)
deriving DecidableEq

/-- `VECM._ls_pi_gamma(delta_y_1_T, y_min1, delta_x, diff_lags,
deterministic)`.  (`1/(T-K*p)` is modelled over ℚ; Python would raise
`ZeroDivisionError` for `T = K*p`, a case no claim exercises.) -/
def lsPiGamma (delta_y_1_T y_min1 delta_x : Mat) (diffLags : ℕ) (det : Det) :
    Except String (Mat × Mat × Mat) := do
  let K := numRowsOf delta_y_1_T
  let T := numColsOf delta_y_1_T
  let mat1 := hstackM (matMul delta_y_1_T (transposeM y_min1))
    (matMul delta_y_1_T (transposeM delta_x))
  let mat2 ← blockMatrixYmin1Deltax y_min1 delta_x
  let est := matMul mat1 mat2
  let pi_cols := K + (if det.cc then 1 else 0) + (if det.lt then 1 else 0)
  let pi_hat := colsTo est pi_cols
  let gamma_hat := colsFrom est pi_cols
  let a := subMat (subMat delta_y_1_T (matMul pi_hat y_min1)) (matMul gamma_hat delta_x)
  let p := diffLags + 1
  let sigma_u_hat := smulMat (1 / ((T : ℚ) - K * p)) (matMul a (transposeM a))
  .ok (pi_hat, gamma_hat, sigma_u_hat)

/-- `VECM._estimate_vecm_ls(diff_lags, deterministic)`: returns the plain
dict `{"Pi_hat": …, "Gamma_hat": …, "Sigma_u_hat": …}`. -/
def estimateVecmLs (y : Mat) (diffLags : ℕ) (det : Det) :
    Except String FitOutcome := do
  let em := endogMatrices y diffLags det
  let z ← lsPiGamma em.2.1 em.2.2.1 em.2.2.2 diffLags det
  .ok (.mapping [("Pi_hat", z.1), ("Gamma_hat", z.2.1), ("Sigma_u_hat", z.2.2)])

/-- `VECM._estimate_vecm_egls(diff_lags, deterministic, r)`: returns the
plain dict `{"alpha": …, "beta": …, "Gamma": …, "Sigma_u": …}`. -/
def estimateVecmEgls (y : Mat) (diffLags : ℕ) (det : Det) (r : ℕ) :
    Except String FitOutcome := do
  let em := endogMatrices y diffLags det
  let T := numColsOf em.1
  let z ← lsPiGamma em.2.1 em.2.2.1 em.2.2.2 diffLags det
  let pi_hat := z.1
  let alpha_hat := colsTo pi_hat r
  let rr ← rMatrices T em.2.2.2 em.2.1 em.2.2.1
  let r11 := rr.2.take r
  let r12 := rr.2.drop r
  let sigInv ← invM z.2.2
  let alphaSigma := matMul (transposeM alpha_hat) sigInv
  let asa ← invM (matMul alphaSigma alpha_hat)
  let r12i ← invM (matMul r12 (transposeM r12))
  let beta_hhat := transposeM (matMul (matMul (matMul (matMul asa alphaSigma)
    (subMat rr.1 (matMul alpha_hat r11))) (transposeM r12)) r12i)
  let beta_hhat := vstackM (identityM r) beta_hhat
  .ok (.mapping [("alpha", alpha_hat), ("beta", beta_hhat),
    ("Gamma", z.2.1), ("Sigma_u", z.2.2)])

/-- `VECM._estimate_vecm_ml(diff_lags, deterministic, r)`: reduced-rank
regression via the eigen-decomposition from `_sij`; returns a
`VECMResults` object. -/
def estimateVecmMl (o : Oracles) (y : Mat) (diffLags : ℕ) (det : Det) (r : ℕ) :
    Except String FitOutcome := do
  let em := endogMatrices y diffLags det
  let z ← sij o em.2.2.2 em.2.1 em.2.2.1
  let s01 := z.2.1
  let s11 := z.2.2.2.1
  let s11_ := z.2.2.2.2.1
  let v := z.2.2.2.2.2.2
  let beta_tilde := transposeM (matMul (transposeM (colsTo v r)) s11_)
  let btop ← invM (beta_tilde.take r)
  let beta_tilde := matMul beta_tilde btop
  let inner ← invM (matMul (matMul (transposeM beta_tilde) s11) beta_tilde)
  let alpha_tilde := matMul (matMul s01 beta_tilde) inner
  let dxi ← invM (matMul em.2.2.2 (transposeM em.2.2.2))
  let gamma_tilde := matMul (matMul (subMat em.2.1
    (matMul (matMul alpha_tilde (transposeM beta_tilde)) em.2.2.1))
    (transposeM em.2.2.2)) dxi
  let temp := subMat (subMat em.2.1
    (matMul (matMul alpha_tilde (transposeM beta_tilde)) em.2.2.1))
    (matMul gamma_tilde em.2.2.2)
  let sigma_u_tilde := divScalar (matMul temp (transposeM temp)) (numColsOf em.1)
  let st ← resultsInit y (diffLags + 1) r alpha_tilde beta_tilde gamma_tilde
    sigma_u_tilde det (some em.2.1) (some em.2.2.1) (some em.2.2.2)
  .ok (.results st)

/-- `VECM.fit(diff_lags, method, deterministic, coint_rank)`: assigns
`self.p = diff_lags + 1` first, then dispatches on the method name; an
unknown name raises `ValueError` (after the assignment).  The updated
model state is returned alongside the outcome. -/
def fit (m : VECMModel) (o : Oracles) (diffLags : ℕ) (method : String)
    (det : Det) (cointRank : Option ℕ) : VECMModel × Except String FitOutcome :=
  let m2 := { m with p := some (diffLags + 1) }
  if method = "ls" then
    (m2, estimateVecmLs m.y diffLags det)
  else if method = "egls" then
    (m2, estimateVecmEgls m.y diffLags det (cointRank.getD 1))
  else if method = "ml" then
    (m2, estimateVecmMl o m.y diffLags det (cointRank.getD 1))
  else
    (m2, .error (method ++ " not recognized, must be among ('ls', 'egls', 'ml')"))

/-- `true` iff the call returned a `VECMResults` object. -/
def isResultsObject : Except String FitOutcome → Bool
  | .ok (.results _) => true
  | _ => false

/-- `lsShape e`: whenever the call completes, it returns a plain mapping
whose keys are exactly `Pi_hat, Gamma_hat, Sigma_u_hat`. -/
def lsShape : Except String FitOutcome → Bool
  | .error _ => true
  | .ok (.mapping kvs) => kvs.map Prod.fst == ["Pi_hat", "Gamma_hat", "Sigma_u_hat"]
  | .ok (.results _) => false

/-- `eglsShape e`: whenever the call completes, it returns a plain mapping
whose keys are exactly `alpha, beta, Gamma, Sigma_u`. -/
def eglsShape : Except String FitOutcome → Bool
  | .error _ => true
  | .ok (.mapping kvs) => kvs.map Prod.fst == ["alpha", "beta", "Gamma", "Sigma_u"]
  | .ok (.results _) => false

/-- `mlShape e`: whenever the call completes, it returns a results
object. -/
def mlShape : Except String FitOutcome → Bool
  | .error _ => true
  | .ok (.results _) => true
  | .ok (.mapping _) => false

lemma shape_bind {α : Type} (sh : Except String FitOutcome → Bool)
    (he : ∀ s, sh (.error s) = true) {e : Except String α}
    {f : α → Except String FitOutcome} (hf : ∀ a, sh (f a) = true) :
    sh (e >>= f) = true := by
  cases e with
  | error s => exact he s
  | ok a => exact hf a

lemma lsShape_ls (y : Mat) (dl : ℕ) (det : Det) :
    lsShape (estimateVecmLs y dl det) = true := by
  unfold estimateVecmLs
  exact shape_bind _ (fun s => rfl) (fun z => rfl)

lemma eglsShape_egls (y : Mat) (dl : ℕ) (det : Det) (r : ℕ) :
    eglsShape (estimateVecmEgls y dl det r) = true := by
  unfold estimateVecmEgls
  exact shape_bind _ (fun s => rfl) (fun z =>
    shape_bind _ (fun s => rfl) (fun rr =>
      shape_bind _ (fun s => rfl) (fun si =>
        shape_bind _ (fun s => rfl) (fun asa =>
          shape_bind _ (fun s => rfl) (fun r12i => rfl)))))

lemma mlShape_ml (o : Oracles) (y : Mat) (dl : ℕ) (det : Det) (r : ℕ) :
    mlShape (estimateVecmMl o y dl det r) = true := by
  unfold estimateVecmMl
  exact shape_bind _ (fun s => rfl) (fun z =>
    shape_bind _ (fun s => rfl) (fun btop =>
      shape_bind _ (fun s => rfl) (fun inner =>
        shape_bind _ (fun s => rfl) (fun dxi =>
          shape_bind _ (fun s => rfl) (fun st => rfl)))))

/-- C1 (amended): for every call of `fit`, method `"ls"` yields (when it
completes) a plain mapping with exactly the keys
`Pi_hat, Gamma_hat, Sigma_u_hat`; method `"egls"` yields a plain mapping
with exactly the keys `alpha, beta, Gamma, Sigma_u` — not a results
object; method `"ml"` yields a `VECMResults` object. -/
theorem C1_fit_return_kinds (m : VECMModel) (o : Oracles) (dl : ℕ)
    (det : Det) (rk : Option ℕ) :
    lsShape (fit m o dl "ls" det rk).2 = true
    ∧ eglsShape (fit m o dl "egls" det rk).2 = true
    ∧ mlShape (fit m o dl "ml" det rk).2 = true :=
  ⟨lsShape_ls m.y dl det, eglsShape_egls m.y dl det (rk.getD 1),
    mlShape_ml o m.y dl det (rk.getD 1)⟩

/-- Concrete data for the C1 counterexample: a 2-variable series of
length 9 on which the EGLS estimator completes successfully. -/
def yC1 : Mat := [[1, 2, 1, 4, 2, 6, 3, 5, 4], [0, 1, 3, 2, 6, 4, 8, 5, 9]]

/-- A concrete model object (`self.y`, `self.neqs`, no `p` yet). -/
def mC1 : VECMModel := ⟨yC1, 2, none⟩

set_option maxHeartbeats 4000000 in
/-- Counterexample to C1 as stated: the call
`fit(diff_lags=1, method="egls", deterministic="", coint_rank=1)` on
`yC1` completes successfully and returns a plain dict, not a results
object. -/
theorem C1_egls_returns_mapping :
    ((fit mC1 oTriv 1 "egls" ⟨false, false, false, false⟩ (some 1)).2).isOk = true
    ∧ isResultsObject ((fit mC1 oTriv 1 "egls" ⟨false, false, false, false⟩ (some 1)).2)
      = false := by
  constructor
  · show (estimateVecmEgls yC1 1 ⟨false, false, false, false⟩ 1).isOk = true
    norm_num [estimateVecmEgls, endogMatrices, lsPiGamma, blockMatrixYmin1Deltax, rMatrices,
      invM, detM, adjugateM, minorM, smulMat, entry, matMul, dotV, transposeM, hstackM,
      vstackM, subMat, zipMat, colsTo, colsFrom, colsRange, diffCols, deltaXBase, identityM,
      numRowsOf, numColsOf, onesRow, List.range_succ, Except.isOk, Except.toBool, Bind.bind,
      Except.bind, yC1]
  · show isResultsObject (estimateVecmEgls yC1 1 ⟨false, false, false, false⟩ 1) = false
    have h := eglsShape_egls yC1 1 ⟨false, false, false, false⟩ 1
    revert h
    cases estimateVecmEgls yC1 1 ⟨false, false, false, false⟩ 1 with
    | error s => intro _ ; rfl
    | ok out =>
        cases out with
        | mapping kvs => intro _ ; rfl
        | results st => intro h ; exact absurd h (by simp [eglsShape])

/-- C6 (amended): calling `fit` with a method name outside
`{"ls", "egls", "ml"}` raises `ValueError` with a message naming the
allowed set — but only after the assignment `self.p = diff_lags + 1` has
already mutated the model object. -/
theorem C6_invalid_method (m : VECMModel) (o : Oracles) (dl : ℕ) (det : Det)
    (rk : Option ℕ) (method : String)
    (h1 : method ≠ "ls") (h2 : method ≠ "egls") (h3 : method ≠ "ml") :
    fit m o dl method det rk
      = ({ m with p := some (dl + 1) },
         .error (method ++ " not recognized, must be among ('ls', 'egls', 'ml')")) := by
  simp [fit, h1, h2, h3]

/-- Witness for C6 (amended) at a concrete input. -/
theorem C6_invalid_method_witness :
    ("mle" ≠ "ls" ∧ "mle" ≠ "egls" ∧ "mle" ≠ "ml")
    ∧ fit mC1 oTriv 1 "mle" ⟨false, false, false, false⟩ none
      = ({ mC1 with p := some (1 + 1) },
         .error ("mle" ++ " not recognized, must be among ('ls', 'egls', 'ml')")) :=
  ⟨⟨by decide, by decide, by decide⟩,
    C6_invalid_method mC1 oTriv 1 ⟨false, false, false, false⟩ none "mle"
      (by decide) (by decide) (by decide)⟩

/-- Counterexample to C6 as stated: the failed call does mutate the model
object — `self.p` is assigned before the method check, so the state after
the failed call differs from the state before it. -/
theorem C6_failed_fit_mutates_state :
    (fit mC1 oTriv 1 "mle" ⟨false, false, false, false⟩ none).2
      = .error "mle not recognized, must be among ('ls', 'egls', 'ml')"
    ∧ (fit mC1 oTriv 1 "mle" ⟨false, false, false, false⟩ none).1.p ≠ mC1.p := by
  exact ⟨rfl, by decide⟩

/-- Oracle assignment used for the C3 counterexample: `v = I`,
`mat_sqrt(s11) = I` (any spectral data makes the shape mismatch appear,
since the shapes do not depend on the oracle values). -/
def oC3 : Oracles :=
  ⟨fun _ => ([1/2, 1/3], identityM 2), fun _ => (identityM 2, [1, 1], identityM 2), id, id⟩

/-- Deterministic specification "lt" (linear trend only). -/
def dLt : Det := ⟨false, false, false, true⟩

/-- `Π = α βᵀ` reconstructed from a successful ML fit. -/
def mlPiOf : Except String FitOutcome → Option Mat
  | .ok (.results st) => some (matMul st.alpha (transposeM st.beta))
  | _ => none

/-- The `Pi_hat` entry of a successful LS fit (the first mapping entry). -/
def lsPiOf : Except String FitOutcome → Option Mat
  | .ok (.mapping (("Pi_hat", pi) :: _)) => some pi
  | _ => none

/-- Concrete series for the C3 counterexample: 2 variables, length 7. -/
def yS : Mat := [[0, 2, 1, 4, 3, 6, 4], [1, 1, 4, 2, 6, 3, 8]]

set_option maxHeartbeats 16000000 in
/-- Counterexample to C3 as stated: with deterministic = "lt" and full rank
`r = K = 2`, both estimators complete successfully, but `_ls_pi_gamma`
splits off `pi_cols = K + 1` columns (it counts an "lt" column even though
the trend row lives in `delta_x`, not in `y_min1`), so the LS `Π` block is
`2 × 3` while the ML `α βᵀ` is `2 × 2` — they cannot be equal.  (The oracle
values are irrelevant: the shapes do not depend on them.) -/
theorem C3_lt_pi_cols_mismatch :
    (mlPiOf (estimateVecmMl oC3 yS 1 dLt 2)).map numColsOf = some 2
    ∧ (lsPiOf (estimateVecmLs yS 1 dLt)).map numColsOf = some 3
    ∧ mlPiOf (estimateVecmMl oC3 yS 1 dLt 2) ≠ lsPiOf (estimateVecmLs yS 1 dLt) := by
  have hem : endogMatrices [[0, 2, 1, 4, 3, 6, 4], [1, 1, 4, 2, 6, 3, 8]] 1
        ⟨false, false, false, true⟩
      = ([[1, 4, 3, 6, 4], [4, 2, 6, 3, 8]],
         [[-1, 3, -1, 3, -2], [3, -2, 4, -3, 5]],
         [[2, 1, 4, 3, 6], [1, 4, 2, 6, 3]],
         [[2, -1, 3, -1, 3], [0, 3, -2, 4, -3], [1, 2, 3, 4, 5]]) := by
    norm_num [endogMatrices, colsFrom, colsRange, diffCols, deltaXBase, entry, numRowsOf,
      numColsOf, List.range_succ, vstackM, onesRow]
  have h1 : (mlPiOf (estimateVecmMl oC3 yS 1 dLt 2)).map numColsOf = some 2 := by
    have hsij : sij oC3 [[2, -1, 3, -1, 3], [0, 3, -2, 4, -3], [1, 2, 3, 4, 5]]
          [[-1, 3, -1, 3, -2], [3, -2, 4, -3, 5]]
          [[2, 1, 4, 3, 6], [1, 4, 2, 6, 3]]
        = .ok ([[8251/37180, -89/1859], [-89/1859, 240/1859]],
           [[-53/845, 3231/37180], [2/169, 3/1859]],
           [[-53/845, 2/169], [3231/37180, 3/1859]],
           [[3/169, -21/845], [-21/845, 279/7436]],
           [[1, 0], [0, 1]],
           [1/2, 1/3],
           [[1, 0], [0, 1]]) := by
      norm_num [sij, rMatrices, matSqrt, diagOfVec, divScalar, invM, detM, adjugateM,
        minorM, smulMat, entry, matMul, dotV, transposeM, subMat, zipMat, identityM,
        numRowsOf, numColsOf, List.range_succ, Bind.bind, Except.bind, Pure.pure,
        Except.pure, oC3]
    norm_num [mlPiOf, estimateVecmMl, hem, hsij, invM, detM, adjugateM, minorM, smulMat,
      entry, matMul, dotV, transposeM, colsTo, subMat, zipMat, divScalar, resultsInit,
      arrayTruthy, sizeOf, numRowsOf, numColsOf, List.range_succ, Bind.bind, Except.bind,
      Pure.pure, Except.pure, dLt, yS]
  have h2 : (lsPiOf (estimateVecmLs yS 1 dLt)).map numColsOf = some 3 := by
    have hmat2 : blockMatrixYmin1Deltax [[2, 1, 4, 3, 6], [1, 4, 2, 6, 3]]
          [[2, -1, 3, -1, 3], [0, 3, -2, 4, -3], [1, 2, 3, 4, 5]]
        = .ok [[155, 308/3, -265/3, -187/3, -231],
           [308/3, 220/3, -59, -134/3, -158],
           [-265/3, -59, 152/3, 36, 132],
           [-187/3, -134/3, 36, 82/3, 96],
           [-231, -158, 132, 96, 349]] := by
      norm_num [blockMatrixYmin1Deltax, invM, detM, adjugateM, minorM, smulMat, entry,
        matMul, dotV, transposeM, hstackM, vstackM, numColsOf, List.range_succ]
    norm_num [lsPiOf, estimateVecmLs, hem, lsPiGamma, hmat2, smulMat, entry, matMul,
      dotV, transposeM, hstackM, vstackM, subMat, zipMat, colsTo, colsFrom, numRowsOf,
      numColsOf, List.range_succ, Bind.bind, Except.bind, Pure.pure, Except.pure, dLt, yS]
  refine ⟨h1, h2, fun h => ?_⟩
  rw [h, h2] at h1
  exact absurd h1 (by decide)

/-! ## Claim C5: the log-likelihood -/

/-- Insert a value into a list sorted by decreasing absolute value. -/
def insertAbs (x : ℚ) : List ℚ → List ℚ
  | [] => [x]
  | y :: ys => if |y| ≤ |x| then x :: y :: ys else y :: insertAbs x ys

/-- Sort a list by decreasing absolute value (insertion sort). -/
def sortAbsDesc : List ℚ → List ℚ
  | [] => []
  | x :: xs => insertAbs x (sortAbsDesc xs)

/-- Modelled from the spec (claim C5's wording): the same closed-form
log-likelihood, but with the sum of `log(1 - λ)` running over the `r`
*largest eigenvalues by magnitude* instead of the first `r` in the
decomposition's native order. -/
noncomputable def llfSpecCore (K T r : ℕ) (detS00 : ℚ) (lambd : List ℚ) : ℝ :=
  - K * T * Real.log (2 * Real.pi) / 2
  - T * (Real.log (detS00 : ℝ)
      + (((sortAbsDesc lambd).map (fun l : ℚ => Real.log (1 - (l : ℝ)))).take r).sum) / 2
  - K * T / 2

/-- The claim's reading of `VECMResults.llf`, with the top-`r`-by-magnitude
eigenvalue selection. -/
noncomputable def llfSpec (st : ResultsState) (o : Oracles) : Except String ℝ := do
  let z ← sij o st.delta_x st.delta_y_1_T st.y_min1
  .ok (llfSpecCore st.K st.T st.r (detM z.1) z.2.2.2.2.2.1)

lemma sum_take_map (f : ℚ → ℝ) : ∀ (r : ℕ) (l : List ℚ), r ≤ l.length →
    ((l.map f).take r).sum = ∑ i : Fin r, f (l.getD i 0)
  | 0, _, _ => by simp
  | r + 1, [], h => by simp at h
  | r + 1, x :: xs, h => by
      rw [List.map_cons, List.take_succ_cons, List.sum_cons,
        sum_take_map f r xs (by simpa using h), Fin.sum_univ_succ]
      simp [List.getD_cons_zero, List.getD_cons_succ]

/-- C5 (amended): the log-likelihood equals the closed-form Gaussian
reduced-rank-regression expression
`-KT·log(2π)/2 - T·(log det S00 + Σ log(1-λ_i))/2 - KT/2`, where the
eigenvalues used are the *first `r` in the eigen-decomposition's native
order* (the code takes `np.log(1-lambd)[:r]` without sorting). -/
theorem C5_llf_closed_form (st : ResultsState) (o : Oracles)
    (s00 s01 s10 s11 s11i : Mat) (lambd : List ℚ) (v : Mat)
    (h : sij o st.delta_x st.delta_y_1_T st.y_min1
      = .ok (s00, s01, s10, s11, s11i, lambd, v))
    (hr : st.r ≤ lambd.length) :
    ResultsState.llf st o
      = .ok (- st.K * st.T * Real.log (2 * Real.pi) / 2
          - st.T * (Real.log ((detM s00 : ℚ) : ℝ)
              + ∑ i : Fin st.r, Real.log (1 - ((lambd.getD i 0 : ℚ) : ℝ))) / 2
          - st.K * st.T / 2) := by
  unfold ResultsState.llf
  rw [h]
  show Except.ok _ = _
  congr 1
  unfold ResultsState.llfCore
  rw [sum_take_map (fun l => Real.log (1 - (l : ℝ))) st.r lambd hr]

/-- The concrete results-container state used for the C5 witness and
counterexample (`K = 2`, `T = 3`, `r = 1`). -/
def stC5 : ResultsState :=
  { y_all := [[0, 0, 1, 2], [0, 0, 1, 3]], K := 2, p := 2,
    deterministic := ⟨false, false, false, false⟩, r := 1,
    alpha := [[1], [1]], beta := [[1], [2]], det_coef_coint := [],
    gamma := [[1, 0], [0, 1]], det_coef := [[], []], sigma_u := [[1, 0], [0, 1]],
    delta_y_1_T := [[0, 1, 0], [0, 0, 1]], y_min1 := [[0, 1, 1], [0, 1, 2]],
    delta_x := [[1, 0, 0]], T := 3 }

/-- Oracle assignment for C5: eigenvalues `[1/4, 1/2]` in native order (the
larger one second), identity eigenvectors and singular vectors. -/
def oC5 : Oracles :=
  ⟨fun _ => ([1/4, 1/2], identityM 2), fun _ => (identityM 2, [1, 1], identityM 2), id, id⟩

lemma sijC5 : sij oC5 stC5.delta_x stC5.delta_y_1_T stC5.y_min1
    = .ok ([[1/3, 0], [0, 1/3]], [[1/3, 1/3], [1/3, 2/3]], [[1/3, 1/3], [1/3, 2/3]],
        [[2/3, 1], [1, 5/3]], [[1, 0], [0, 1]], [1/4, 1/2], [[1, 0], [0, 1]]) := by
  show sij oC5 [[1, 0, 0]] [[0, 1, 0], [0, 0, 1]] [[0, 1, 1], [0, 1, 2]] = _
  norm_num [sij, rMatrices, matSqrt, diagOfVec, divScalar, invM, detM, adjugateM, minorM,
    smulMat, entry, matMul, dotV, transposeM, subMat, zipMat, identityM, numRowsOf,
    numColsOf, List.range_succ, Bind.bind, Except.bind, Pure.pure, Except.pure, oC5]

/-- Witness for C5 (amended) at the concrete state. -/
theorem C5_llf_closed_form_witness :
    sij oC5 stC5.delta_x stC5.delta_y_1_T stC5.y_min1
      = .ok ([[1/3, 0], [0, 1/3]], [[1/3, 1/3], [1/3, 2/3]], [[1/3, 1/3], [1/3, 2/3]],
          [[2/3, 1], [1, 5/3]], [[1, 0], [0, 1]], [1/4, 1/2], [[1, 0], [0, 1]])
    ∧ stC5.r ≤ ([1/4, 1/2] : List ℚ).length
    ∧ ResultsState.llf stC5 oC5
      = .ok (- stC5.K * stC5.T * Real.log (2 * Real.pi) / 2
          - stC5.T * (Real.log ((detM [[1/3, 0], [0, 1/3]] : ℚ) : ℝ)
              + ∑ i : Fin stC5.r,
                  Real.log (1 - ((([1/4, 1/2] : List ℚ).getD i 0 : ℚ) : ℝ))) / 2
          - stC5.K * stC5.T / 2) :=
  ⟨sijC5, by decide,
    C5_llf_closed_form stC5 oC5 _ _ _ _ _ _ _ sijC5 (by decide)⟩

set_option maxHeartbeats 1000000 in
/-- Counterexample to C5 as stated: with native eigenvalue order
`[1/4, 1/2]` and `r = 1`, the code uses `log(1 - 1/4)` while the claim's
top-by-magnitude selection would use `log(1 - 1/2)`; the two values of the
log-likelihood differ. -/
theorem C5_native_order_not_sorted :
    ResultsState.llf stC5 oC5 ≠ llfSpec stC5 oC5 := by
  have hx : ResultsState.llf stC5 oC5 = .ok (ResultsState.llfCore 2 3 1 (1/9) [1/4, 1/2]) := by
    unfold ResultsState.llf
    rw [sijC5]
    show Except.ok _ = _
    norm_num [stC5, detM, entry, List.range_succ]
  have hy : llfSpec stC5 oC5 = .ok (llfSpecCore 2 3 1 (1/9) [1/4, 1/2]) := by
    unfold llfSpec
    rw [sijC5]
    show Except.ok _ = _
    norm_num [stC5, detM, entry, List.range_succ]
  rw [hx, hy]
  intro h
  have heq := Except.ok.inj h
  norm_num [ResultsState.llfCore, llfSpecCore, sortAbsDesc, insertAbs, List.take,
    List.sum_cons, List.sum_nil] at heq
  have habs : ¬(|(1 : ℚ)/2| ≤ |(1 : ℚ)/4|) := by
    rw [abs_of_pos (by norm_num : (0 : ℚ) < 1/2), abs_of_pos (by norm_num : (0 : ℚ) < 1/4)]
    norm_num
  rw [if_neg habs] at heq
  norm_num [List.take, List.sum_cons, List.sum_nil] at heq
  have hlt : Real.log ((1 : ℝ)/2) < Real.log ((3 : ℝ)/4) :=
    Real.log_lt_log (by norm_num) (by norm_num)
  nlinarith [heq, hlt]

end Vecm

/-! ## Matrix-world embedding of the estimator algebra (claims C2 and C3)

The reduced-rank-regression algebra of `_estimate_vecm_ml` and the
unrestricted regression of `_ls_pi_gamma` over Mathlib matrices.  The
outputs of `np.linalg.eig`/`np.linalg.svd` (`v` and `s11_`) enter as
arbitrary matrix parameters, exactly as the Python code consumes them. -/

namespace VecmMW

open Matrix

/-- `numpy.linalg.inv` of a nonsingular square matrix (exact over ℚ). -/
def matInv {m : Type} [Fintype m] [DecidableEq m] (a : Matrix m m ℚ) : Matrix m m ℚ :=
  a.det⁻¹ • a.adjugate

lemma mul_matInv {m : Type} [Fintype m] [DecidableEq m] (a : Matrix m m ℚ)
    (h : a.det ≠ 0) : a * matInv a = 1 := by
  unfold matInv
  rw [Matrix.mul_smul, Matrix.mul_adjugate, smul_smul, inv_mul_cancel₀ h, one_smul]

lemma matInv_mul {m : Type} [Fintype m] [DecidableEq m] (a : Matrix m m ℚ)
    (h : a.det ≠ 0) : matInv a * a = 1 := by
  unfold matInv
  rw [Matrix.smul_mul, Matrix.adjugate_mul, smul_smul, inv_mul_cancel₀ h, one_smul]

/-- `B[:r]` (the leading `r` rows of an `n × r` matrix). -/
def topRows {n r : ℕ} (h : r ≤ n) (b : Matrix (Fin n) (Fin r) ℚ) :
    Matrix (Fin r) (Fin r) ℚ :=
  b.submatrix (Fin.castLE h) id

/-- `beta_tilde = (v[:, :r].T.dot(s11_)).T` — the unnormalised cointegration
matrix assembled from the first `r` eigenvector columns and the inverse
square root of `s11`. -/
def betaRaw {n r : ℕ} (h : r ≤ n) (v s11inv : Matrix (Fin n) (Fin n) ℚ) :
    Matrix (Fin n) (Fin r) ℚ :=
  ((v.submatrix id (Fin.castLE h)).transpose * s11inv).transpose

/-- `beta_tilde = np.dot(beta_tilde, inv(beta_tilde[:r]))` — the
normalisation step of `_estimate_vecm_ml`. -/
def betaNorm {n r : ℕ} (h : r ≤ n) (v s11inv : Matrix (Fin n) (Fin n) ℚ) :
    Matrix (Fin n) (Fin r) ℚ :=
  betaRaw h v s11inv * matInv (topRows h (betaRaw h v s11inv))

/-- C2: whenever the unnormalised leading `r × r` block is invertible, the
normalised `beta` returned by the ML estimator has its leading `r × r`
block exactly equal to the identity matrix, for every eigenvector matrix
`v` and inverse-square-root factor `s11_` (hence for every valid input
series, lag count, deterministic specification and rank). -/
theorem C2_beta_normalization {n r : ℕ} (h : r ≤ n)
    (v s11inv : Matrix (Fin n) (Fin n) ℚ)
    (hdet : (topRows h (betaRaw h v s11inv)).det ≠ 0) :
    topRows h (betaNorm h v s11inv) = 1 := by
  unfold betaNorm topRows
  rw [Matrix.submatrix_mul _ _ (Fin.castLE h) id id Function.bijective_id,
    Matrix.submatrix_id_id]
  exact mul_matInv _ hdet

/-- Witness for C2 at a concrete input (`n = r = 1`, `v = s11_ = 1`). -/
theorem C2_beta_normalization_witness :
    (topRows (le_refl 1) (betaRaw (le_refl 1) (1 : Matrix (Fin 1) (Fin 1) ℚ) 1)).det ≠ 0
    ∧ topRows (le_refl 1) (betaNorm (le_refl 1) (1 : Matrix (Fin 1) (Fin 1) ℚ) 1) = 1 := by
  have hdet : (topRows (le_refl 1) (betaRaw (le_refl 1)
      (1 : Matrix (Fin 1) (Fin 1) ℚ) 1)).det ≠ 0 := by
    simp [topRows, betaRaw, Matrix.det_fin_one]
  exact ⟨hdet, C2_beta_normalization (le_refl 1) 1 1 hdet⟩

/-! ### Claim C3: reduced-rank regression at full rank equals unrestricted LS -/

/-- The projection `m = I_T - delta_xᵀ (delta_x delta_xᵀ)⁻¹ delta_x` of
`_r_matrices`. -/
def projM {n T : ℕ} (dx : Matrix (Fin n) (Fin T) ℚ) : Matrix (Fin T) (Fin T) ℚ :=
  1 - dx.transpose * matInv (dx * dx.transpose) * dx

/-- `r0 = delta_y_1_T.dot(m)`. -/
def r0M {K n T : ℕ} (dy : Matrix (Fin K) (Fin T) ℚ) (dx : Matrix (Fin n) (Fin T) ℚ) :
    Matrix (Fin K) (Fin T) ℚ := dy * projM dx

/-- `r1 = y_min1.dot(m)`. -/
def r1M {K n T : ℕ} (ym : Matrix (Fin K) (Fin T) ℚ) (dx : Matrix (Fin n) (Fin T) ℚ) :
    Matrix (Fin K) (Fin T) ℚ := ym * projM dx

/-- `s01 = r0.dot(r1.T)/T`. -/
def s01M {K n T : ℕ} (dy ym : Matrix (Fin K) (Fin T) ℚ)
    (dx : Matrix (Fin n) (Fin T) ℚ) : Matrix (Fin K) (Fin K) ℚ :=
  ((T : ℚ))⁻¹ • (r0M dy dx * (r1M ym dx).transpose)

/-- `s11 = r1.dot(r1.T)/T`. -/
def s11M {K n T : ℕ} (ym : Matrix (Fin K) (Fin T) ℚ)
    (dx : Matrix (Fin n) (Fin T) ℚ) : Matrix (Fin K) (Fin K) ℚ :=
  ((T : ℚ))⁻¹ • (r1M ym dx * (r1M ym dx).transpose)

/-- The block matrix inverted by `_block_matrix_ymin1_deltax`. -/
def lsG {K n T : ℕ} (ym : Matrix (Fin K) (Fin T) ℚ) (dx : Matrix (Fin n) (Fin T) ℚ) :
    Matrix (Fin K ⊕ Fin n) (Fin K ⊕ Fin n) ℚ :=
  fromBlocks (ym * ym.transpose) (ym * dx.transpose)
    (dx * ym.transpose) (dx * dx.transpose)

/-- `est_pi_gamma = mat1.dot(mat2)` of `_ls_pi_gamma` (Lutkepohl (7.2.4)):
`[ΔY Y₋ᵀ, ΔY ΔXᵀ] · G⁻¹`. -/
def lsPiGammaMW {K n T : ℕ} (dy ym : Matrix (Fin K) (Fin T) ℚ)
    (dx : Matrix (Fin n) (Fin T) ℚ) : Matrix (Fin K) (Fin K ⊕ Fin n) ℚ :=
  fromColumns (dy * ym.transpose) (dy * dx.transpose) * matInv (lsG ym dx)

/-- `pi_hat`: the first `pi_cols = K` columns of `est_pi_gamma` (the split
for a deterministic specification without `"cc"` and `"lt"`). -/
def lsPiHatMW {K n T : ℕ} (dy ym : Matrix (Fin K) (Fin T) ℚ)
    (dx : Matrix (Fin n) (Fin T) ℚ) : Matrix (Fin K) (Fin K) ℚ :=
  (lsPiGammaMW dy ym dx).toColumns₁

/-- `alpha_tilde = s01.dot(beta_tilde).dot(inv(beta_tilde.T.dot(s11).dot(beta_tilde)))`. -/
def mlAlphaMW {K n T : ℕ} (dy ym : Matrix (Fin K) (Fin T) ℚ)
    (dx : Matrix (Fin n) (Fin T) ℚ) (beta : Matrix (Fin K) (Fin K) ℚ) :
    Matrix (Fin K) (Fin K) ℚ :=
  s01M dy ym dx * beta * matInv (beta.transpose * s11M ym dx * beta)

lemma topRows_self {n : ℕ} (b : Matrix (Fin n) (Fin n) ℚ) :
    topRows (le_refl n) b = b := by
  unfold topRows
  ext i j
  rfl

lemma matInv_transpose {m : Type} [Fintype m] [DecidableEq m] (a : Matrix m m ℚ) :
    matInv a.transpose = (matInv a).transpose := by
  unfold matInv
  rw [Matrix.det_transpose, ← Matrix.adjugate_transpose, Matrix.transpose_smul]

lemma projM_symm {n T : ℕ} (dx : Matrix (Fin n) (Fin T) ℚ) :
    (projM dx).transpose = projM dx := by
  unfold projM
  rw [Matrix.transpose_sub, Matrix.transpose_one, Matrix.transpose_mul,
    Matrix.transpose_mul, Matrix.transpose_transpose]
  congr 1
  rw [show (matInv (dx * dx.transpose)).transpose
      = matInv ((dx * dx.transpose).transpose) from (matInv_transpose _).symm]
  rw [Matrix.transpose_mul, Matrix.transpose_transpose, Matrix.mul_assoc]

lemma projM_idem {n T : ℕ} (dx : Matrix (Fin n) (Fin T) ℚ)
    (hdx : (dx * dx.transpose).det ≠ 0) :
    projM dx * projM dx = projM dx := by
  have hcancel : dx * (dx.transpose * (matInv (dx * dx.transpose) * dx)) = dx := by
    rw [← Matrix.mul_assoc, ← Matrix.mul_assoc, Matrix.mul_assoc (dx * dx.transpose),
      ← Matrix.mul_assoc (dx * dx.transpose), mul_matInv _ hdx, Matrix.one_mul]
  unfold projM
  have hPx : dx.transpose * matInv (dx * dx.transpose) * dx
      * (dx.transpose * matInv (dx * dx.transpose) * dx)
      = dx.transpose * matInv (dx * dx.transpose) * dx := by
    simp only [Matrix.mul_assoc]
    rw [hcancel]
  calc (1 - dx.transpose * matInv (dx * dx.transpose) * dx)
        * (1 - dx.transpose * matInv (dx * dx.transpose) * dx)
      = 1 - dx.transpose * matInv (dx * dx.transpose) * dx
        - dx.transpose * matInv (dx * dx.transpose) * dx
        + dx.transpose * matInv (dx * dx.transpose) * dx
          * (dx.transpose * matInv (dx * dx.transpose) * dx) := by noncomm_ring
    _ = 1 - dx.transpose * matInv (dx * dx.transpose) * dx := by
        rw [hPx]
        noncomm_ring

/-- C3 (for deterministic specifications without `"cc"` and `"lt"`, where
`y_min1` has exactly `K` rows and `pi_cols = K`): at full rank `r = K` the
matrix `Π = α̃ β̃ᵀ` reconstructed from the ML estimates equals the `Π`
block of the unrestricted least-squares estimator, for every eigenvector
matrix `v` and inverse-square-root factor `s11_` making the normalisation
well defined, and whenever the matrices inverted along both paths are
nonsingular. -/
theorem C3_full_rank_coincidence {K n T : ℕ}
    (dy ym : Matrix (Fin K) (Fin T) ℚ) (dx : Matrix (Fin n) (Fin T) ℚ)
    (v s11inv : Matrix (Fin K) (Fin K) ℚ)
    (hT : (T : ℚ) ≠ 0)
    (hdx : (dx * dx.transpose).det ≠ 0)
    (hs11 : (s11M ym dx).det ≠ 0)
    (hG : (lsG ym dx).det ≠ 0)
    (hB : (betaRaw (le_refl K) v s11inv).det ≠ 0) :
    mlAlphaMW dy ym dx (betaNorm (le_refl K) v s11inv)
        * (betaNorm (le_refl K) v s11inv).transpose
      = lsPiHatMW dy ym dx := by
  have hbeta : betaNorm (le_refl K) v s11inv = 1 := by
    unfold betaNorm
    rw [topRows_self]
    exact mul_matInv _ hB
  rw [hbeta]
  unfold mlAlphaMW
  rw [Matrix.transpose_one, Matrix.mul_one, Matrix.one_mul, Matrix.mul_one, Matrix.mul_one]
  set P := s01M dy ym dx * matInv (s11M ym dx) with hP
  have hMsymm := projM_symm dx
  have hMM := projM_idem dx hdx
  have hr1r1 : ym * projM dx * ym.transpose = r1M ym dx * (r1M ym dx).transpose := by
    unfold r1M
    rw [Matrix.transpose_mul, hMsymm, Matrix.mul_assoc ym (projM dx)
        (projM dx * ym.transpose),
      ← Matrix.mul_assoc (projM dx) (projM dx) ym.transpose, hMM, Matrix.mul_assoc]
  have hr0r1 : r0M dy dx * (r1M ym dx).transpose = dy * projM dx * ym.transpose := by
    unfold r0M r1M
    rw [Matrix.transpose_mul, hMsymm, Matrix.mul_assoc dy (projM dx)
        (projM dx * ym.transpose),
      ← Matrix.mul_assoc (projM dx) (projM dx) ym.transpose, hMM, Matrix.mul_assoc]
  have hrs : r1M ym dx * (r1M ym dx).transpose = (T : ℚ) • s11M ym dx := by
    unfold s11M
    rw [smul_smul, mul_inv_cancel₀ hT, one_smul]
  have hPkey : P * (r1M ym dx * (r1M ym dx).transpose)
      = r0M dy dx * (r1M ym dx).transpose := by
    rw [hrs, hP, Matrix.mul_smul, Matrix.mul_assoc, matInv_mul _ hs11, Matrix.mul_one]
    unfold s01M
    rw [smul_smul, mul_inv_cancel₀ hT, one_smul]
  have hPMY : P * (ym * projM dx * ym.transpose) = dy * projM dx * ym.transpose := by
    rw [hr1r1, hPkey, hr0r1]
  have hPx1M : dx.transpose * matInv (dx * dx.transpose) * dx = 1 - projM dx := by
    unfold projM
    noncomm_ring
  have hQW : ((dy - P * ym) * dx.transpose * matInv (dx * dx.transpose)) * (dx * dx.transpose)
      = (dy - P * ym) * dx.transpose := by
    rw [Matrix.mul_assoc, matInv_mul _ hdx, Matrix.mul_one]
  have hcols : fromColumns P ((dy - P * ym) * dx.transpose * matInv (dx * dx.transpose))
      * lsG ym dx = fromColumns (dy * ym.transpose) (dy * dx.transpose) := by
    unfold lsG
    rw [fromColumns_mul_fromBlocks, Matrix.fromColumns_ext_iff]
    constructor
    · have hq : ((dy - P * ym) * dx.transpose * matInv (dx * dx.transpose))
          * (dx * ym.transpose)
          = (dy - P * ym) * ((dx.transpose * matInv (dx * dx.transpose) * dx)
              * ym.transpose) := by
        simp only [Matrix.mul_assoc]
      rw [hq, hPx1M]
      have hPMY2 : P * (ym * (projM dx * ym.transpose)) = dy * (projM dx * ym.transpose) := by
        simpa only [Matrix.mul_assoc] using hPMY
      simp only [Matrix.sub_mul, Matrix.mul_sub, Matrix.one_mul, Matrix.mul_assoc, hPMY2]
      abel
    · rw [hQW]
      simp only [Matrix.sub_mul, Matrix.mul_assoc]
      abel
  have hPQ : fromColumns P ((dy - P * ym) * dx.transpose * matInv (dx * dx.transpose))
      = lsPiGammaMW dy ym dx := by
    unfold lsPiGammaMW
    rw [← hcols, Matrix.mul_assoc _ (lsG ym dx) (matInv (lsG ym dx)),
      mul_matInv _ hG, Matrix.mul_one]
  unfold lsPiHatMW
  rw [← hPQ, toColumns₁_fromColumns]

/-- Concrete matrices for the C3 witness (`K = n = 1`, `T = 2`). -/
def dyW : Matrix (Fin 1) (Fin 2) ℚ := !![1, 1]

/-- Lagged-level matrix for the C3 witness. -/
def ymW : Matrix (Fin 1) (Fin 2) ℚ := !![1, 0]

/-- Differenced-regressor matrix for the C3 witness. -/
def dxW : Matrix (Fin 1) (Fin 2) ℚ := !![0, 1]

/-- Witness for C3 at a concrete input. -/
theorem C3_full_rank_coincidence_witness :
    ((2 : ℕ) : ℚ) ≠ 0
    ∧ (dxW * dxW.transpose).det ≠ 0
    ∧ (s11M ymW dxW).det ≠ 0
    ∧ (lsG ymW dxW).det ≠ 0
    ∧ (betaRaw (le_refl 1) (1 : Matrix (Fin 1) (Fin 1) ℚ) 1).det ≠ 0
    ∧ mlAlphaMW dyW ymW dxW (betaNorm (le_refl 1) (1 : Matrix (Fin 1) (Fin 1) ℚ) 1)
        * (betaNorm (le_refl 1) (1 : Matrix (Fin 1) (Fin 1) ℚ) 1).transpose
      = lsPiHatMW dyW ymW dxW := by
  have hT : ((2 : ℕ) : ℚ) ≠ 0 := by norm_num
  have hW : dxW * dxW.transpose = !![1] := by
    ext i j
    fin_cases i
    fin_cases j
    simp [dxW, Matrix.mul_apply, Fin.sum_univ_succ]
  have hdx : (dxW * dxW.transpose).det ≠ 0 := by
    rw [hW, Matrix.det_fin_one]
    norm_num
  have hWinv : matInv (dxW * dxW.transpose) = 1 := by
    rw [hW]
    unfold matInv
    rw [Matrix.adjugate_fin_one, Matrix.det_fin_one]
    norm_num
  have hM : projM dxW = !![1, 0; 0, 0] := by
    unfold projM
    rw [hWinv, Matrix.mul_one]
    ext i j
    fin_cases i <;> fin_cases j <;>
      simp [dxW, Matrix.mul_apply, Fin.sum_univ_succ, Matrix.one_apply]
  have hr1 : r1M ymW dxW = !![1, 0] := by
    unfold r1M
    rw [hM]
    ext i j
    fin_cases i
    fin_cases j <;>
      simp [ymW, Matrix.mul_apply, Fin.sum_univ_succ]
  have hs11v : s11M ymW dxW = !![1/2] := by
    unfold s11M
    rw [hr1]
    ext i j
    fin_cases i
    fin_cases j
    norm_num [Matrix.smul_apply, Matrix.mul_apply, Fin.sum_univ_succ, Matrix.transpose_apply,
      Matrix.vecHead, Matrix.vecTail]
  have hs11 : (s11M ymW dxW).det ≠ 0 := by
    rw [hs11v, Matrix.det_fin_one]
    norm_num
  have hymym : ymW * ymW.transpose = !![1] := by
    ext i j
    fin_cases i
    fin_cases j
    simp [ymW, Matrix.mul_apply, Fin.sum_univ_succ]
  have hdxym : dxW * ymW.transpose = 0 := by
    ext i j
    fin_cases i
    fin_cases j
    simp [dxW, ymW, Matrix.mul_apply, Fin.sum_univ_succ]
  have hG : (lsG ymW dxW).det ≠ 0 := by
    unfold lsG
    rw [hdxym, hW, hymym, Matrix.det_fromBlocks_zero₂₁, Matrix.det_fin_one]
    norm_num
  have hBv : betaRaw (le_refl 1) (1 : Matrix (Fin 1) (Fin 1) ℚ) 1 = 1 := by
    unfold betaRaw
    ext i j
    fin_cases i
    fin_cases j
    simp [Matrix.mul_apply, Matrix.submatrix_apply, Matrix.one_apply]
  have hB : (betaRaw (le_refl 1) (1 : Matrix (Fin 1) (Fin 1) ℚ) 1).det ≠ 0 := by
    rw [hBv, Matrix.det_one]
    norm_num
  exact ⟨hT, hdx, hs11, hG, hB,
    C3_full_rank_coincidence dyW ymW dxW 1 1 hT hdx hs11 hG hB⟩

end VecmMW
